import Mathlib

/-!
Verification of the fetch-dedup-cursor core of the Okta log-ingestion
connectors: GetEvents in Packs/Okta/Integrations/OktaLog/OktaLog.py and
Client.fetch_logs in Packs/OktaSIEM/Integrations/OKTA_SIEM_Data/OKTA_SIEM_Data.py.
The Python code is shallowly embedded: pure routines become Lean functions,
fallible routines (those that can raise IndexError or ValueError, or whose
HTTP calls can fail) return Option or Except, and the generator-based
iteration loop becomes a fuel-indexed recursive function over a fetch oracle.
-/

/-! ## Timestamp model

Python datetime values compare lexicographically on
(year, month, day, hour, minute, second, microsecond); the Timestamp
structure and its injective, order-preserving encoding toNat mirror that.
-/

structure Timestamp where
  year : Nat
  month : Nat
  day : Nat
  hour : Nat
  minute : Nat
  second : Nat
  usec : Nat
deriving DecidableEq, Repr

/-- Order-preserving encoding of a valid Timestamp (month is at most 12, day at
most 31, hour at most 23, minute and second at most 59, usec below 1000000);
mirrors lexicographic comparison of Python datetime objects. -/
def Timestamp.toNat (t : Timestamp) : Nat :=
  (((((t.year * 13 + t.month) * 32 + t.day) * 24 + t.hour) * 60 + t.minute) * 60
      + t.second) * 1000000 + t.usec

def digitVal (c : Char) : Nat := c.toNat - 48

def twoDigits (a b : Char) : Nat := digitVal a * 10 + digitVal b

def fourDigits (a b c d : Char) : Nat :=
  ((digitVal a * 10 + digitVal b) * 10 + digitVal c) * 10 + digitVal d

/-- Leading decimal digits of a character list, and the rest. -/
def takeDigits : List Char → (List Char × List Char)
  | [] => ([], [])
  | c :: cs =>
    if c.isDigit then
      let p := takeDigits cs
      (c :: p.1, p.2)
    else ([], c :: cs)

def digitsVal (ds : List Char) : Nat :=
  ds.foldl (fun n c => n * 10 + digitVal c) 0

/-- Microseconds from a strptime %f fraction: one to six digits, padded on the
right with zeros to six digits, as CPython does. -/
def fracToUsec (ds : List Char) : Option Nat :=
  if 1 ≤ ds.length ∧ ds.length ≤ 6 then
    some (digitsVal ds * 10 ^ (6 - ds.length))
  else none

/-- Length of a month in days, with leap years, as validated by the Python
datetime constructor. -/
def daysInMonth (y m : Nat) : Nat :=
  if m = 2 then
    if (y % 4 = 0 ∧ y % 100 ≠ 0) ∨ y % 400 = 0 then 29 else 28
  else if m = 4 ∨ m = 6 ∨ m = 9 ∨ m = 11 then 30
  else 31

/-- Range validation performed by the Python datetime constructor. -/
def mkTimestamp (y mo d h mi s us : Nat) : Option Timestamp :=
  if 1 ≤ mo ∧ mo ≤ 12 ∧ 1 ≤ d ∧ d ≤ daysInMonth y mo ∧ h ≤ 23 ∧ mi ≤ 59
      ∧ s ≤ 59 ∧ us ≤ 999999 then
    some ⟨y, mo, d, h, mi, s, us⟩
  else none

/-- Parses the fixed prefix YYYY-MM-DD, a date-time separator accepted by sep,
then HH:MM:SS, returning the fields and the remaining characters. Fields are
zero padded, as in every timestamp the Okta API and the connector emit. -/
def parseDateTimeCore (sep : Char → Bool) :
    List Char → Option (Nat × Nat × Nat × Nat × Nat × Nat × List Char)
  | y1 :: y2 :: y3 :: y4 :: '-' :: m1 :: m2 :: '-' :: d1 :: d2 :: t :: h1 :: h2
      :: ':' :: n1 :: n2 :: ':' :: s1 :: s2 :: rest =>
    if ([y1, y2, y3, y4, m1, m2, d1, d2, h1, h2, n1, n2, s1, s2].all
          Char.isDigit) ∧ sep t then
      some (fourDigits y1 y2 y3 y4, twoDigits m1 m2, twoDigits d1 d2,
        twoDigits h1 h2, twoDigits n1 n2, twoDigits s1 s2, rest)
    else none
  | _ => none

/-- Model of datetime.strptime(s, the format %Y-%m-%dt%H:%M:%S.%f) as invoked
by GetEvents.get_last_run: lowercase t separator, mandatory fractional part of
one to six digits, and nothing after it; returns none where Python raises
ValueError. -/
def strptimeOktaLog (s : String) : Option Timestamp :=
  match parseDateTimeCore (fun c => c = 't') s.toList with
  | none => none
  | some (y, mo, d, h, mi, sec, rest) =>
    match rest with
    | '.' :: ds =>
      let p := takeDigits ds
      if p.2 = [] then
        match fracToUsec p.1 with
        | some us => mkTimestamp y mo d h mi sec us
        | none => none
      else none
    | _ => none

/-- Model of the collaborator arg_to_datetime from CommonServerPython (which is
not part of this repository) on the ISO-like timestamps the Okta API and the
connector exchange: YYYY-MM-DD, a T or t separator, HH:MM:SS, an optional
fractional part of one to six digits, and an optional trailing Z or z. -/
def arg_to_datetime (s : String) : Option Timestamp :=
  match parseDateTimeCore (fun c => c = 'T' ∨ c = 't') s.toList with
  | none => none
  | some (y, mo, d, h, mi, sec, rest) =>
    match rest with
    | [] => mkTimestamp y mo d h mi sec 0
    | ['Z'] => mkTimestamp y mo d h mi sec 0
    | ['z'] => mkTimestamp y mo d h mi sec 0
    | '.' :: ds =>
      let p := takeDigits ds
      match fracToUsec p.1 with
      | none => none
      | some us =>
        match p.2 with
        | [] => mkTimestamp y mo d h mi sec us
        | ['Z'] => mkTimestamp y mo d h mi sec us
        | ['z'] => mkTimestamp y mo d h mi sec us
        | _ => none
    | _ => none

/-- Left pad a decimal rendering with zeros to the given width. -/
def padNum (w n : Nat) : String :=
  let s := toString n
  String.mk (List.replicate (w - s.length) '0') ++ s

/-- Model of datetime.isoformat(): the fractional part is printed, padded to
six digits, exactly when the microsecond field is nonzero. -/
def Timestamp.isoformat (t : Timestamp) : String :=
  padNum 4 t.year ++ "-" ++ padNum 2 t.month ++ "-" ++ padNum 2 t.day ++ "T"
    ++ padNum 2 t.hour ++ ":" ++ padNum 2 t.minute ++ ":" ++ padNum 2 t.second
    ++ (if t.usec = 0 then "" else "." ++ padNum 6 t.usec)

/-! ## Event data model

The core of both connectors reads exactly two fields of each event record:
its unique identifier uuid and its publication timestamp published (kept in
its raw string form, as the Python code does). -/

structure Event where
  uuid : String
  published : String
deriving DecidableEq, Repr

/-- Key used for every timestamp comparison on events: the parsed published
field, encoded order-preservingly; unparseable timestamps map to 0 and every
theorem that depends on the key assumes parseability. -/
def pubKeyN (e : Event) : Nat :=
  match arg_to_datetime e.published with
  | some t => t.toNat
  | none => 0

/-- Same key on a raw timestamp string. -/
def pubKeyStr (s : String) : Nat :=
  match arg_to_datetime s with
  | some t => t.toNat
  | none => 0

def pubLe (a b : Event) : Prop := pubKeyN a ≤ pubKeyN b

def pubLt (a b : Event) : Prop := pubKeyN a < pubKeyN b

instance : DecidableRel pubLe :=
  fun a b => inferInstanceAs (Decidable (pubKeyN a ≤ pubKeyN b))

instance : DecidableRel pubLt :=
  fun a b => inferInstanceAs (Decidable (pubKeyN a < pubKeyN b))

instance : IsTotal Event pubLe := ⟨fun _ _ => Nat.le_total _ _⟩

instance : IsTrans Event pubLe := ⟨fun _ _ _ => Nat.le_trans⟩

instance : IsAntisymm Event pubLt := ⟨fun _ _ h h' => ((Nat.lt_asymm h) h').elim⟩

/-! ## OktaLog.py: GetEvents -/

/-- Python del events[i]: removes the element at index i, raising IndexError
(none) when the index is out of range of the current list. -/
def delAt (l : List Event) (i : Nat) : Option (List Event) :=
  if i < l.length then some (l.eraseIdx i) else none

/-- GetEvents.remove_duplicates, embedded exactly as written: it first
collects the indexes (into the original list) of the events whose uuid is in
ids, then executes del events[i] for those indexes in ascending order while
the list shrinks under it; none models an IndexError escaping the function. -/
def remove_duplicates (events : List Event) (ids : List String) : Option (List Event) :=
  let duplicates_indexes :=
    (List.range events.length).filter fun i =>
      match events[i]? with
      | some e => decide (e.uuid ∈ ids)
      | none => false
  duplicates_indexes.foldlM delAt events

/-- The exception raised by Client.call on any request failure: the message
wraps the underlying cause, which the raise-from chain attaches. -/
structure DemistoException where
  msg : String
  cause : String
deriving DecidableEq, Repr

/-- How a run of the iteration loop can fail to produce a batch. -/
inductive RunErr where
  | http : DemistoException → RunErr
  | pyError : String → RunErr
  | fuel : RunErr
deriving DecidableEq, Repr

/-- Client.call over a raw transport oracle mapping the since parameter of the
request to either a parsed JSON body or the text of the underlying exception:
any failure is wrapped into a DemistoException carrying the cause. -/
def call (raw : String → Except String (List Event)) (since : String) :
    Except DemistoException (List Event) :=
  match raw since with
  | .ok v => .ok v
  | .error exc =>
    .error ⟨"something went wrong with the http call " ++ exc, exc⟩

/-- The while-True loop of GetEvents._iter_events, as the list of pages it
yields. The generator yields the current page, and aggregated_results extends
the accumulator with it before control returns to the generator; only then is
the anchor popped off the (already copied) page. Each recursive step models:
pop the last event of the current page as the anchor, refetch with since set
to the anchor's published, pop index 0 of the new page, stop if the remainder
is empty, else continue with the remainder. Fuel bounds the recursion; fuel
exhaustion is reported as RunErr.fuel and never identified with a real
outcome of the code. -/
def iter_events_pages (fetch : String → Except DemistoException (List Event)) :
    Nat → List Event → Except RunErr (List (List Event))
  | 0, _ => .error .fuel
  | fuel + 1, events =>
    match events.getLast? with
    | none => .error (.pyError "IndexError: pop from empty list")
    | some anchor =>
      match fetch anchor.published with
      | .error e => .error (.http e)
      | .ok [] => .ok [events]
      | .ok [_] => .ok [events]
      | .ok (_ :: b :: rest) =>
        (iter_events_pages fetch fuel (b :: rest)).map (events :: ·)

/-- The anchors consumed by the same loop: the last event of every yielded
page, popped right after the page is handed to the accumulator. -/
def iter_anchors (fetch : String → Except DemistoException (List Event)) :
    Nat → List Event → Option (List Event)
  | 0, _ => none
  | fuel + 1, events =>
    match events.getLast? with
    | none => none
    | some anchor =>
      match fetch anchor.published with
      | .error _ => none
      | .ok [] => some [anchor]
      | .ok [_] => some [anchor]
      | .ok (_ :: b :: rest) =>
        (iter_anchors fetch fuel (b :: rest)).map (anchor :: ·)

/-- GetEvents.aggregated_results: fetch the first page, deduplicate it against
the prior run's ids when that list is non-empty, return an empty batch when
nothing remains, else run the iteration loop and concatenate the yielded
pages in order. -/
def aggregated_results (fetch : String → Except DemistoException (List Event))
    (fuel : Nat) (last_object_ids : List String) (since0 : String) :
    Except RunErr (List Event) :=
  match fetch since0 with
  | .error e => .error (.http e)
  | .ok page0 =>
    let deduped : Except RunErr (List Event) :=
      if last_object_ids.isEmpty then .ok page0
      else
        match remove_duplicates page0 last_object_ids with
        | some l => .ok l
        | none => .error (.pyError "IndexError: list assignment index out of range")
    match deduped with
    | .error e => .error e
    | .ok events =>
      if events.isEmpty then .ok []
      else (iter_events_pages fetch fuel events).map List.flatten

/-- The persisted state of OktaLog: the after timestamp string and the ids
list, exactly the dictionary shape produced by GetEvents.get_last_run. -/
structure OktaLastRun where
  after : String
  ids : List String
deriving DecidableEq, Repr

/-- Python str.lower() followed by .replace of z by the empty string, on the
character list: ASCII uppercase letters are lowered, then every z removed. -/
def pyLowerStripZ (s : String) : String :=
  String.mk (((s.toList.map fun c =>
    if 65 ≤ c.toNat ∧ c.toNat ≤ 90 then Char.ofNat (c.toNat + 32) else c)).filter
      fun c => c ≠ 'z')

/-- GetEvents.get_last_run: after is the published field of the last event of
the batch, lowercased, stripped of z, parsed by strptime with the
%Y-%m-%dt%H:%M:%S.%f format and re-rendered by isoformat; ids is the list of
uuids of the events whose raw published string equals that of the last event.
none models events[-1] raising IndexError on an empty batch or strptime
raising ValueError. -/
def get_last_run (events : List Event) : Option OktaLastRun :=
  match events.getLast? with
  | none => none
  | some lastEv =>
    let last_time := lastEv.published
    let ids := (events.filter fun e => e.published == last_time).map (·.uuid)
    match strptimeOktaLog (pyLowerStripZ last_time) with
    | none => none
    | some ts => some ⟨ts.isoformat, ids⟩

/-- The three commands the OktaLog main dispatch distinguishes. -/
inductive OktaCommand where
  | test_module
  | fetch_events
  | okta_get_events
deriving DecidableEq, Repr

/-- Which demisto.setLastRun call the OktaLog main performs, given the command
and the batch aggregated_results returned: test-module never persists, while
both fetch-events and okta-get-events persist get_last_run of the batch
whenever the batch is non-empty. none means the persisted state is left
untouched (either no call is made, or get_last_run raises first). -/
def okta_set_last_run (cmd : OktaCommand) (events : List Event) :
    Option OktaLastRun :=
  match cmd with
  | .test_module => none
  | _ => if events.isEmpty then none else get_last_run events

/-- The fetch-mode run of the OktaLog main, from the prior persisted state:
aggregated_results with the prior ids and since set to the prior after; any
exception leaves the persisted state untouched; on a non-empty batch the new
get_last_run is persisted, and an empty batch persists nothing. Returns the
outcome and the persisted state after the run. -/
def okta_fetch_command (fetch : String → Except DemistoException (List Event))
    (fuel : Nat) (prior : OktaLastRun) :
    Except RunErr (List Event) × OktaLastRun :=
  match aggregated_results fetch fuel prior.ids prior.after with
  | .error e => (.error e, prior)
  | .ok events =>
    if events.isEmpty then (.ok events, prior)
    else
      match get_last_run events with
      | none => (.error (.pyError "ValueError: time data does not match format"), prior)
      | some lr => (.ok events, lr)

/-- Lifts a pure page oracle into the transport interface. -/
def okCall (f : String → List Event) : String → Except DemistoException (List Event) :=
  fun s => .ok (f s)

/-! ## OKTA_SIEM_Data.py: Client.fetch_logs

Python is dynamically typed: the previous_fetched_uuids list persisted by
fetch_logs holds strings when written by hand or by the documented state
layout, but the walrus expression in the dedup loop appends the boolean value
of the membership test. IdVal is the union of the two runtime types that can
actually occur in that list. -/

inductive IdVal where
  | str : String → IdVal
  | bool : Bool → IdVal
deriving DecidableEq, Repr

/-- The persisted state of the OKTA_SIEM_Data fetch: the last event creation
time (absent on the first run) and the previously fetched uuid list. -/
structure SiemLastRun where
  last_event_created_time : Option String
  previous_fetched_uuids : List IdVal
deriving DecidableEq, Repr

/-- Python s.split at the dot, first component: the characters before the
first dot, the whole string when there is none. -/
def truncDot (s : String) : String :=
  String.mk (s.toList.takeWhile fun c => c ≠ '.')

/-- Client.should_reset_list: compares the two fetch times truncated at the
first dot (whole-second granularity) after parsing; none models
arg_to_datetime failing to parse, which would make the Python comparison
raise. -/
def should_reset_list (previous_fetch_time new_fetch_time : String) : Option Bool :=
  match arg_to_datetime (truncDot new_fetch_time),
      arg_to_datetime (truncDot previous_fetch_time) with
  | some a, some b => some (decide (b.toNat < a.toNat))
  | _, _ => none

/-- Python sorted with key arg_to_datetime of the published field, as invoked
in fetch_logs. Python list.sort is stable; the model is the (stable)
insertion sort of Mathlib under the parsed-timestamp key. The model returns
none when some published field does not parse; Python would raise once two
elements are compared, so the two agree on every list of parseable events. -/
def sorted_by_published (l : List Event) : Option (List Event) :=
  if l.all fun e => (arg_to_datetime e.published).isSome then
    some (l.insertionSort pubLe)
  else none

/-- Client.fetch_logs, from the prior persisted state and the page the logs
endpoint returns for the computed window. The dedup loop keeps each item
whose uuid is not in previous_fetched_uuids, and - because the walrus binds
the whole membership test - appends the boolean True to new_events_uuids for
every kept item. On a non-empty page it sorts the kept events, reads the
published field of the last one as the new creation time, accumulates the
uuid list when the second did not advance, and returns the sorted batch with
the new state; an empty page returns the prior state unchanged. none models
an uncaught exception (the IndexError of indexing an empty sorted list at -1,
or a parse failure). -/
def fetch_logs (first_fetch : String) (last_run : SiemLastRun)
    (res : List Event) : Option (List Event × SiemLastRun) :=
  let fetch_start_time := last_run.last_event_created_time.getD first_fetch
  let previous := last_run.previous_fetched_uuids
  if res.isEmpty then some ([], last_run)
  else
    let new_events := res.filter fun item => decide (IdVal.str item.uuid ∉ previous)
    let new_events_uuids := new_events.map fun _ => IdVal.bool true
    match sorted_by_published new_events with
    | none => none
    | some sortedEvs =>
      match sortedEvs.getLast? with
      | none => none
      | some lastEv =>
        match should_reset_list fetch_start_time lastEv.published with
        | none => none
        | some reset =>
          some (sortedEvs, ⟨some lastEv.published,
            if reset then new_events_uuids else previous ++ new_events_uuids⟩)

/-! ## Claim theorems -/

/-- C1: the claim that the Deduplicator returns exactly the events whose uuid
is not in the seen-id set fails on GetEvents.remove_duplicates: deleting the
collected indexes in ascending order while the list shrinks keeps a duplicate
and drops a fresh event on [a, b, c] with seen set containing a and b (the
expected result is the plain filter, the third conjunct), and on [a, b] with
both seen the second deletion raises IndexError. -/
theorem C1_remove_duplicates_index_deletion_bug :
    remove_duplicates [⟨"a", "t"⟩, ⟨"b", "t"⟩, ⟨"c", "t"⟩] ["a", "b"]
        = some [⟨"b", "t"⟩]
    ∧ (([⟨"a", "t"⟩, ⟨"b", "t"⟩, ⟨"c", "t"⟩] : List Event).filter
        fun e => decide (e.uuid ∉ ["a", "b"])) = [⟨"c", "t"⟩]
    ∧ remove_duplicates [⟨"a", "t"⟩, ⟨"b", "t"⟩] ["a", "b"] = none := by
  decide

/-- C2: the claim about the CursorAdvancer fails on Client.fetch_logs of
OKTA_SIEM_Data: on a first fetch of two events with distinct timestamps the
persisted uuid set is the list containing the boolean True twice (the walrus
expression binds the membership test, not the uuid), so it does not contain
the uuid of the single boundary event; and it fails on GetEvents.get_last_run
of OktaLog for a whole-second published value, where strptime with a
mandatory fractional part raises ValueError. -/
theorem C2_cursor_advancer_ids_bug :
    fetch_logs "2023-01-01T00:00:00" ⟨none, []⟩
        [⟨"u1", "2023-01-01T10:00:01.000Z"⟩, ⟨"u2", "2023-01-01T10:00:05.000Z"⟩]
      = some ([⟨"u1", "2023-01-01T10:00:01.000Z"⟩, ⟨"u2", "2023-01-01T10:00:05.000Z"⟩],
          ⟨some "2023-01-01T10:00:05.000Z", [IdVal.bool true, IdVal.bool true]⟩)
    ∧ IdVal.str "u2" ∉ [IdVal.bool true, IdVal.bool true]
    ∧ get_last_run [⟨"u", "2023-01-01T10:00:00Z"⟩] = none := by
  decide

/-- C4: the claim that an empty deduplicated batch leaves the Watermark as it
was and yields an empty batch fails on Client.fetch_logs of OKTA_SIEM_Data:
when the page is non-empty but every event is already in
previous_fetched_uuids, indexing the empty sorted list at -1 raises
IndexError instead (first conjunct); the zero-events case of the claim does
hold there (second conjunct), as does the OktaLog side, where a run whose
fetch returns no events keeps the prior state untouched (third conjunct). -/
theorem C4_empty_batch_code_bug :
    fetch_logs "2023-01-01T00:00:00"
        ⟨some "2023-01-01T10:00:00.000Z", [IdVal.str "u1"]⟩
        [⟨"u1", "2023-01-01T10:00:00.000Z"⟩] = none
    ∧ (∀ (ff : String) (lr : SiemLastRun), fetch_logs ff lr [] = some ([], lr))
    ∧ (∀ (fuel : Nat) (prior : OktaLastRun),
        okta_fetch_command (okCall fun _ => []) fuel prior = (.ok [], prior)) := by
  refine ⟨by decide, fun ff lr => rfl, fun fuel prior => ?_⟩
  by_cases h : prior.ids.isEmpty <;>
    simp [okta_fetch_command, aggregated_results, okCall, remove_duplicates, h]

/-- C5: the claimed Watermark invariant fails on Client.fetch_logs of
OKTA_SIEM_Data: with a prior state at 10:00:00.100 and two fresh events at
10:00:00.200 and 10:00:00.500, the after timestamp advances strictly (second
conjunct) yet the persisted uuid list is not cleared: it still contains the
prior uuid p (third conjunct) and two boolean markers, one of them for the
non-boundary event, while the uuid of the boundary event is absent (fourth
conjunct). -/
theorem C5_watermark_ids_invariant_bug :
    fetch_logs "2023-01-01T00:00:00"
        ⟨some "2023-01-01T10:00:00.100Z", [IdVal.str "p"]⟩
        [⟨"u1", "2023-01-01T10:00:00.200Z"⟩, ⟨"u2", "2023-01-01T10:00:00.500Z"⟩]
      = some ([⟨"u1", "2023-01-01T10:00:00.200Z"⟩, ⟨"u2", "2023-01-01T10:00:00.500Z"⟩],
          ⟨some "2023-01-01T10:00:00.500Z",
            [IdVal.str "p", IdVal.bool true, IdVal.bool true]⟩)
    ∧ pubKeyStr "2023-01-01T10:00:00.100Z" < pubKeyStr "2023-01-01T10:00:00.500Z"
    ∧ IdVal.str "p" ∈ [IdVal.str "p", IdVal.bool true, IdVal.bool true]
    ∧ IdVal.str "u2" ∉ [IdVal.str "p", IdVal.bool true, IdVal.bool true] := by
  decide

/-- C8 counterexample: the okta-get-events command of OktaLog does persist a
new Watermark whenever it returned events, contrary to the claim that query
mode performs no cursor advancement. -/
theorem C8_query_mode_persists_counterexample :
    okta_set_last_run OktaCommand.okta_get_events
        [⟨"u", "2023-01-01T10:00:00.500Z"⟩]
      = some ⟨"2023-01-01T10:00:00.500000", ["u"]⟩
    ∧ okta_set_last_run OktaCommand.okta_get_events
        [⟨"u", "2023-01-01T10:00:00.500Z"⟩] ≠ none := by
  decide

/-- C8 amended: test-module never touches the persisted state, and a new
Watermark is persisted exactly when the command is fetch-events or
okta-get-events, the batch is non-empty, and get_last_run does not raise; in
particular query mode advances the cursor exactly like fetch mode. -/
theorem C8_watermark_persistence_characterization :
    ∀ (cmd : OktaCommand) (events : List Event),
      okta_set_last_run OktaCommand.test_module events = none
      ∧ (okta_set_last_run cmd events ≠ none ↔
          cmd ≠ OktaCommand.test_module ∧ events ≠ [] ∧ get_last_run events ≠ none) := by
  intro cmd events
  refine ⟨rfl, ?_⟩
  cases cmd <;> cases events <;> simp [okta_set_last_run]

/-- Stability helper: inserting an element that the predicate rejects does not
change the filtered sublist. -/
theorem filter_orderedInsert_not (p : Event → Bool) (a : Event) (l : List Event)
    (hpa : p a = false) :
    (l.orderedInsert pubLe a).filter p = l.filter p := by
  induction l with
  | nil => simp [List.orderedInsert, hpa]
  | cons b l ih =>
    by_cases h : pubLe a b
    · simp [List.orderedInsert, h, hpa]
    · simp only [List.orderedInsert, if_neg h, List.filter_cons, ih]

/-- Stability helper: inserting an element whose key is k places it before
every element of key k already present, because every element the insertion
walks past has a strictly smaller key. -/
theorem filter_orderedInsert_key (k : Nat) (a : Event) (l : List Event)
    (hk : pubKeyN a = k) :
    (l.orderedInsert pubLe a).filter (fun e => pubKeyN e == k)
      = a :: l.filter (fun e => pubKeyN e == k) := by
  induction l with
  | nil => simp [List.orderedInsert, hk]
  | cons b l ih =>
    by_cases h : pubLe a b
    · simp [List.orderedInsert, h, List.filter_cons, hk]
    · have hlt : pubKeyN b < pubKeyN a := Nat.lt_of_not_le h
      have hbk : (pubKeyN b == k) = false := by
        subst hk
        simp [Nat.ne_of_lt hlt]
      simp only [List.orderedInsert, if_neg h, List.filter_cons, hbk, ih]
      simp

/-- Stability of the insertion sort under the published key: for every key
value, the sublist of events carrying that key is unchanged. -/
theorem insertionSort_filter_key (k : Nat) (l : List Event) :
    (l.insertionSort pubLe).filter (fun e => pubKeyN e == k)
      = l.filter (fun e => pubKeyN e == k) := by
  induction l with
  | nil => rfl
  | cons a l ih =>
    by_cases hk : pubKeyN a = k
    · rw [List.insertionSort, filter_orderedInsert_key k a _ hk, ih]
      simp [List.filter_cons, hk]
    · have hpa : ((fun e => pubKeyN e == k) a) = false := by simp [hk]
      rw [List.insertionSort, filter_orderedInsert_not _ _ _ hpa, ih]
      simp [List.filter_cons, hk]

/-- C6 counterexample: OktaLog has no Orderer. When the API returns a page out
of timestamp order, aggregated_results emits it unchanged: the batch places
the 10:00:05 event before the 10:00:03 event, which is not ascending by
published, and main would compute the new Watermark from that unsorted list. -/
theorem C6_oktalog_unsorted_batch_counterexample :
    aggregated_results
        (okCall fun s =>
          if s = "start" then
            [⟨"b", "2023-01-01T10:00:05.000Z"⟩, ⟨"a", "2023-01-01T10:00:03.000Z"⟩]
          else []) 3 [] "start"
      = .ok [⟨"b", "2023-01-01T10:00:05.000Z"⟩, ⟨"a", "2023-01-01T10:00:03.000Z"⟩]
    ∧ ¬ List.Sorted pubLe
        [⟨"b", "2023-01-01T10:00:05.000Z"⟩, ⟨"a", "2023-01-01T10:00:03.000Z"⟩] := by
  constructor
  · rfl
  · intro h
    have := List.rel_of_sorted_cons h _ (List.mem_singleton.mpr rfl)
    revert this
    decide

/-- C6 amended: in OKTA_SIEM_Data the deduplicated batch is indeed sorted
ascending by the parsed published timestamp with a stable sort before the new
Watermark is derived from it (sorted output, a permutation of the input, and
for every key value the tied events keep their fetch order); OktaLog, by
contrast, emits its accumulator in fetch order without any sort. -/
theorem C6_siem_orderer_sorted_stable :
    ∀ (l out : List Event), sorted_by_published l = some out →
      List.Sorted pubLe out ∧ out.Perm l
      ∧ ∀ k : Nat, out.filter (fun e => pubKeyN e == k)
          = l.filter (fun e => pubKeyN e == k) := by
  intro l out h
  unfold sorted_by_published at h
  by_cases hc : l.all (fun e => (arg_to_datetime e.published).isSome) <;>
    simp [hc] at h
  subst h
  exact ⟨List.sorted_insertionSort pubLe l, List.perm_insertionSort pubLe l,
    fun k => insertionSort_filter_key k l⟩

/-- C6 amended, witness at a concrete two-event input. -/
theorem C6_siem_orderer_sorted_stable_witness :
    List.Sorted pubLe
        [⟨"s1", "2023-03-01T00:00:01.000Z"⟩, ⟨"s2", "2023-03-01T00:00:02.000Z"⟩]
    ∧ List.Perm
        [⟨"s1", "2023-03-01T00:00:01.000Z"⟩, ⟨"s2", "2023-03-01T00:00:02.000Z"⟩]
        ([⟨"s2", "2023-03-01T00:00:02.000Z"⟩, ⟨"s1", "2023-03-01T00:00:01.000Z"⟩] :
          List Event) :=
  ⟨(C6_siem_orderer_sorted_stable
      [⟨"s2", "2023-03-01T00:00:02.000Z"⟩, ⟨"s1", "2023-03-01T00:00:01.000Z"⟩]
      [⟨"s1", "2023-03-01T00:00:01.000Z"⟩, ⟨"s2", "2023-03-01T00:00:02.000Z"⟩]
      (by decide)).1,
   (C6_siem_orderer_sorted_stable
      [⟨"s2", "2023-03-01T00:00:02.000Z"⟩, ⟨"s1", "2023-03-01T00:00:01.000Z"⟩]
      [⟨"s1", "2023-03-01T00:00:01.000Z"⟩, ⟨"s2", "2023-03-01T00:00:02.000Z"⟩]
      (by decide)).2.1⟩

/-- C9 counterexample: the Orderer of OKTA_SIEM_Data is a stable sort, so two
starting orders of the same two-event set with one shared published timestamp
yield two different outputs; the claim that any starting order yields an
identical output is false. -/
theorem C9_orderer_tie_counterexample :
    sorted_by_published
        [⟨"x", "2023-01-01T10:00:00.500Z"⟩, ⟨"y", "2023-01-01T10:00:00.500Z"⟩]
      = some [⟨"x", "2023-01-01T10:00:00.500Z"⟩, ⟨"y", "2023-01-01T10:00:00.500Z"⟩]
    ∧ sorted_by_published
        [⟨"y", "2023-01-01T10:00:00.500Z"⟩, ⟨"x", "2023-01-01T10:00:00.500Z"⟩]
      = some [⟨"y", "2023-01-01T10:00:00.500Z"⟩, ⟨"x", "2023-01-01T10:00:00.500Z"⟩]
    ∧ List.Perm
        [⟨"x", "2023-01-01T10:00:00.500Z"⟩, ⟨"y", "2023-01-01T10:00:00.500Z"⟩]
        ([⟨"y", "2023-01-01T10:00:00.500Z"⟩, ⟨"x", "2023-01-01T10:00:00.500Z"⟩] :
          List Event)
    ∧ ([⟨"x", "2023-01-01T10:00:00.500Z"⟩, ⟨"y", "2023-01-01T10:00:00.500Z"⟩] :
          List Event)
        ≠ [⟨"y", "2023-01-01T10:00:00.500Z"⟩, ⟨"x", "2023-01-01T10:00:00.500Z"⟩] := by
  decide

/-- C9 amended: the Orderer is idempotent (sorting its own output changes
nothing), and two starting orders of the same event set yield identical
outputs whenever the parsed published keys are pairwise distinct; with tied
keys the stable sort preserves each starting order instead. -/
theorem C9_orderer_idempotent_distinct_keys :
    ∀ (l out : List Event), sorted_by_published l = some out →
      sorted_by_published out = some out
      ∧ ∀ (l2 out2 : List Event), l.Perm l2 → sorted_by_published l2 = some out2 →
          (l.map pubKeyN).Nodup → out = out2 := by
  intro l out h
  unfold sorted_by_published at h
  by_cases hc : l.all (fun e => (arg_to_datetime e.published).isSome) <;>
    simp [hc] at h
  subst h
  have hsorted := List.sorted_insertionSort pubLe l
  have hperm := List.perm_insertionSort pubLe l
  constructor
  · have hall : (l.insertionSort pubLe).all
        (fun e => (arg_to_datetime e.published).isSome) = true := by
      rw [List.all_eq_true] at hc ⊢
      exact fun e he => hc e (hperm.mem_iff.mp he)
    unfold sorted_by_published
    rw [if_pos hall, hsorted.insertionSort_eq]
  · intro l2 out2 hp h2 hnodup
    unfold sorted_by_published at h2
    by_cases hc2 : l2.all (fun e => (arg_to_datetime e.published).isSome) <;>
      simp [hc2] at h2
    subst h2
    have hperm2 := List.perm_insertionSort pubLe l2
    have hsorted2 := List.sorted_insertionSort pubLe l2
    have hpp : (l.insertionSort pubLe).Perm (l2.insertionSort pubLe) :=
      (hperm.trans hp).trans hperm2.symm
    have hnodup1 : ((l.insertionSort pubLe).map pubKeyN).Nodup :=
      ((hperm.map pubKeyN).symm).nodup hnodup
    have hne : (l.insertionSort pubLe).Pairwise fun a b => pubKeyN a ≠ pubKeyN b :=
      List.pairwise_map.mp hnodup1
    have hlt1 : List.Sorted pubLt (l.insertionSort pubLe) :=
      (hsorted.and hne).imp fun hab => Nat.lt_of_le_of_ne hab.1 hab.2
    have hnodup2 : ((l2.insertionSort pubLe).map pubKeyN).Nodup :=
      ((hpp.map pubKeyN)).nodup hnodup1
    have hne2 : (l2.insertionSort pubLe).Pairwise fun a b => pubKeyN a ≠ pubKeyN b :=
      List.pairwise_map.mp hnodup2
    have hlt2 : List.Sorted pubLt (l2.insertionSort pubLe) :=
      (hsorted2.and hne2).imp fun hab => Nat.lt_of_le_of_ne hab.1 hab.2
    exact List.eq_of_perm_of_sorted hpp hlt1 hlt2

/-- C9 amended, witness at a concrete two-event input with distinct keys. -/
theorem C9_orderer_idempotent_distinct_keys_witness :
    sorted_by_published
        [⟨"q1", "2023-04-01T08:00:01.000Z"⟩, ⟨"q2", "2023-04-01T08:00:02.000Z"⟩]
      = some [⟨"q1", "2023-04-01T08:00:01.000Z"⟩, ⟨"q2", "2023-04-01T08:00:02.000Z"⟩] :=
  (C9_orderer_idempotent_distinct_keys
    [⟨"q2", "2023-04-01T08:00:02.000Z"⟩, ⟨"q1", "2023-04-01T08:00:01.000Z"⟩]
    [⟨"q1", "2023-04-01T08:00:01.000Z"⟩, ⟨"q2", "2023-04-01T08:00:02.000Z"⟩]
    (by decide)).1

/-- C3: the iteration loop of GetEvents. First conjunct, the anchor-exclusion
scenario: when the first page holds e1 and e2 and refetching since the
published timestamp of the anchor e2 returns the singleton e2 again (the
inclusive since filter), the run excludes that re-returned anchor, finds the
remainder empty, stops, and returns exactly e1 followed by e2. Second
conjunct, the general step: whenever the current page is non-empty, its last
(most recent) event is the anchor, the next fetch is issued with since equal
to the anchor's published, the first event of the returned page is excluded,
and an empty remainder ends the loop while a non-empty one continues with
exactly that remainder. -/
theorem C3_anchor_exclusion_loop :
    ∀ (f : String → List Event) (fuel : Nat) (e1 e2 : Event) (s0 : String),
      f s0 = [e1, e2] →
      f e2.published = [e2] →
      aggregated_results (okCall f) (fuel + 1) [] s0 = .ok [e1, e2]
      ∧ ∀ (events : List Event) (anchor : Event),
          events.getLast? = some anchor →
          iter_events_pages (okCall f) (fuel + 1) events =
            match f anchor.published with
            | [] => .ok [events]
            | [_] => .ok [events]
            | _ :: b :: rest =>
              (iter_events_pages (okCall f) fuel (b :: rest)).map (events :: ·) := by
  intro f fuel e1 e2 s0 h1 h2
  constructor
  · simp [aggregated_results, okCall, h1, iter_events_pages, h2, Except.map]
  · intro events anchor hl
    rw [iter_events_pages, hl]
    simp only [okCall]
    cases f anchor.published with
    | nil => rfl
    | cons x xs => cases xs <;> rfl

/-- C3, witness: the scenario run at a concrete oracle. -/
theorem C3_anchor_exclusion_loop_witness :
    aggregated_results
        (okCall fun s =>
          if s = "w0" then
            [⟨"e1", "2023-01-01T10:00:00.000Z"⟩, ⟨"e2", "2023-01-01T10:00:05.000Z"⟩]
          else if s = "2023-01-01T10:00:05.000Z" then
            [⟨"e2", "2023-01-01T10:00:05.000Z"⟩]
          else []) 4 [] "w0"
      = .ok [⟨"e1", "2023-01-01T10:00:00.000Z"⟩, ⟨"e2", "2023-01-01T10:00:05.000Z"⟩] :=
  (C3_anchor_exclusion_loop
    (fun s =>
      if s = "w0" then
        [⟨"e1", "2023-01-01T10:00:00.000Z"⟩, ⟨"e2", "2023-01-01T10:00:05.000Z"⟩]
      else if s = "2023-01-01T10:00:05.000Z" then
        [⟨"e2", "2023-01-01T10:00:05.000Z"⟩]
      else [])
    3 ⟨"e1", "2023-01-01T10:00:00.000Z"⟩ ⟨"e2", "2023-01-01T10:00:05.000Z"⟩ "w0"
    (by decide) (by decide)).1

/-- C7: failures of the OktaLog run are all-or-nothing. Whatever the transport
oracle does: (i) whenever the run ends in an error the persisted state equals
the prior state and no events are returned; (ii) if the very first request
fails with cause exc, the run aborts with the DemistoException wrapping that
cause; (iii) if inside the loop the refetch for the current anchor fails, the
loop aborts with the DemistoException wrapping the cause. -/
theorem C7_fetch_failure_all_or_nothing :
    ∀ (raw : String → Except String (List Event)) (fuel : Nat) (prior : OktaLastRun),
      (∀ e, (okta_fetch_command (call raw) fuel prior).1 = .error e →
          (okta_fetch_command (call raw) fuel prior).2 = prior)
      ∧ (∀ exc, raw prior.after = .error exc →
          okta_fetch_command (call raw) fuel prior =
            (.error (.http ⟨"something went wrong with the http call " ++ exc, exc⟩),
              prior))
      ∧ (∀ (fuel2 : Nat) (events : List Event) (anchor : Event) (exc : String),
          events.getLast? = some anchor →
          raw anchor.published = .error exc →
          iter_events_pages (call raw) (fuel2 + 1) events =
            .error (.http ⟨"something went wrong with the http call " ++ exc, exc⟩)) := by
  intro raw fuel prior
  refine ⟨?_, ?_, ?_⟩
  · intro e
    unfold okta_fetch_command
    cases h : aggregated_results (call raw) fuel prior.ids prior.after with
    | error e' => intro; rfl
    | ok events =>
      by_cases he : events.isEmpty
      · simp [he]
      · cases hg : get_last_run events <;> simp [he, hg]
  · intro exc hexc
    unfold okta_fetch_command aggregated_results call
    rw [hexc]
  · intro fuel2 events anchor exc hl hexc
    rw [iter_events_pages, hl]
    simp only [call, hexc]

/-- C7, witness: a run whose single request fails with a concrete cause. -/
theorem C7_fetch_failure_all_or_nothing_witness :
    okta_fetch_command (call fun _ => .error "connection timeout") 1 ⟨"w7", ["i"]⟩ =
      (.error (.http ⟨"something went wrong with the http call connection timeout",
        "connection timeout"⟩), ⟨"w7", ["i"]⟩) :=
  (C7_fetch_failure_all_or_nothing (fun _ => .error "connection timeout") 1
    ⟨"w7", ["i"]⟩).2.1 "connection timeout" rfl

/-- C10: the generator yields each page to aggregated_results, which extends
the accumulator with the whole page before control returns and the anchor is
popped off it; hence every anchor the loop consumes is an element of the
concatenation of the yielded pages, the batch the run returns - the pop never
loses an event from it. -/
theorem C10_anchors_never_lost :
    ∀ (fetch : String → Except DemistoException (List Event)) (fuel : Nat)
      (events : List Event) (pages : List (List Event)) (anchors : List Event),
      iter_events_pages fetch fuel events = .ok pages →
      iter_anchors fetch fuel events = some anchors →
      ∀ a ∈ anchors, a ∈ pages.flatten := by
  intro fetch fuel
  induction fuel with
  | zero => intro events pages anchors hp; simp [iter_events_pages] at hp
  | succ fuel ih =>
    intro events pages anchors hp ha
    rw [iter_events_pages] at hp
    rw [iter_anchors] at ha
    cases hl : events.getLast? with
    | none => simp [hl] at hp
    | some anchor =>
      simp only [hl] at hp ha
      have hmem : anchor ∈ events := List.mem_of_getLast?_eq_some hl
      cases hf : fetch anchor.published with
      | error e => simp [hf] at hp
      | ok page =>
        simp only [hf] at hp ha
        cases page with
        | nil =>
          simp only [Except.ok.injEq] at hp
          simp only [Option.some.injEq] at ha
          subst hp; subst ha
          intro a hmem'
          simp only [List.mem_singleton] at hmem'
          subst hmem'
          simp [hmem]
        | cons x xs =>
          cases xs with
          | nil =>
            simp only [Except.ok.injEq] at hp
            simp only [Option.some.injEq] at ha
            subst hp; subst ha
            intro a hmem'
            simp only [List.mem_singleton] at hmem'
            subst hmem'
            simp [hmem]
          | cons b rest =>
            cases hrec : iter_events_pages fetch fuel (b :: rest) with
            | error e => simp [hrec, Except.map] at hp
            | ok pages' =>
              cases harec : iter_anchors fetch fuel (b :: rest) with
              | none => simp [harec] at ha
              | some anchors' =>
                simp only [hrec, Except.map, Except.ok.injEq] at hp
                simp only [harec, Option.map_some', Option.some.injEq] at ha
                subst hp; subst ha
                intro a hmem'
                rcases List.mem_cons.mp hmem' with h | h
                · subst h; simp [hmem]
                · have := ih (b :: rest) pages' anchors' hrec harec a h
                  simp only [List.flatten_cons, List.mem_append]
                  exact Or.inr this

/-- C10, witness: a concrete two-iteration run; the first anchor is an element
of the returned accumulated batch. -/
theorem C10_anchors_never_lost_witness :
    (⟨"y", "2023-02-01T00:00:02.000Z"⟩ : Event) ∈
      ([[⟨"x", "2023-02-01T00:00:01.000Z"⟩, ⟨"y", "2023-02-01T00:00:02.000Z"⟩],
        [⟨"z", "2023-02-01T00:00:03.000Z"⟩, ⟨"w", "2023-02-01T00:00:04.000Z"⟩]] :
        List (List Event)).flatten :=
  C10_anchors_never_lost
    (okCall fun s =>
      if s = "2023-02-01T00:00:02.000Z" then
        [⟨"y", "2023-02-01T00:00:02.000Z"⟩, ⟨"z", "2023-02-01T00:00:03.000Z"⟩,
          ⟨"w", "2023-02-01T00:00:04.000Z"⟩]
      else if s = "2023-02-01T00:00:04.000Z" then
        [⟨"w", "2023-02-01T00:00:04.000Z"⟩]
      else [])
    2
    [⟨"x", "2023-02-01T00:00:01.000Z"⟩, ⟨"y", "2023-02-01T00:00:02.000Z"⟩]
    [[⟨"x", "2023-02-01T00:00:01.000Z"⟩, ⟨"y", "2023-02-01T00:00:02.000Z"⟩],
      [⟨"z", "2023-02-01T00:00:03.000Z"⟩, ⟨"w", "2023-02-01T00:00:04.000Z"⟩]]
    [⟨"y", "2023-02-01T00:00:02.000Z"⟩, ⟨"w", "2023-02-01T00:00:04.000Z"⟩]
    (by rfl) (by rfl)
    ⟨"y", "2023-02-01T00:00:02.000Z"⟩ (by decide)
